import Mathlib

/-!
Verification of the Diagnostic Gate repository against its specification.

The artifact bundles, UI payloads and API values of the repository are
untyped JSON-like trees; `Jval` is their shallow embedding (JS `undefined`
is represented as `Option.none` at use sites, never as a `Jval`).
JS numbers are embedded as a decimal mantissa/exponent pair: none of the
verified properties compares numeric values, so float rounding is not
modelled.  Prototype-inherited and expando properties of JS objects and
arrays (such as `toString` or `length`) are outside the model: an object
is exactly its own enumerable string-keyed fields, an array exactly its
elements.
-/

inductive Jval : Type where
  | null : Jval
  | bool : Bool → Jval
  | num : Int → Int → Jval
  | str : String → Jval
  | arr : List Jval → Jval
  | obj : List (String × Jval) → Jval
deriving Repr, BEq

/-- JS `typeof`, restricted to the values representable as `Jval`
(`typeof null` is the string "object" in JS). -/
def jsTypeof : Jval → String
  | Jval.null => "object"
  | Jval.bool _ => "boolean"
  | Jval.num _ _ => "number"
  | Jval.str _ => "string"
  | Jval.arr _ => "object"
  | Jval.obj _ => "object"

/-- The guard `cur == null || typeof cur !== "object"` of `getByPath`,
negated: a present value passes iff it is an array or an object
(`null` is caught by the `== null` half even though its `typeof` is
"object"). -/
def isObjLike : Jval → Bool
  | Jval.arr _ => true
  | Jval.obj _ => true
  | _ => false

/-- Own-field lookup on an object, first binding wins (a JS object holds
each key at most once, so the list form is a faithful superset). -/
def lookupField : List (String × Jval) → String → Option Jval
  | [], _ => none
  | (k, v) :: fs, key => if k = key then some v else lookupField fs key

/-- Digits of a decimal numeral, most significant first, to a `Nat`. -/
def digitsToNat (cs : List Char) : Nat :=
  cs.foldl (fun n c => n * 10 + (c.toNat - 48)) 0

/-- A string that JS reads as a canonical array index: a non-empty digit
string without a leading zero (except "0" itself). -/
def canonIndex (key : String) : Option Nat :=
  let cs := key.toList
  if cs.isEmpty then none
  else if !(cs.all fun c => c.isDigit) then none
  else if cs.length > 1 && cs.headD '0' == '0' then none
  else some (digitsToNat cs)

/-- JS element read `xs[key]` on an array (only canonical in-range indices
hit an element; prototype properties are outside the model). -/
def arrayGet (xs : List Jval) (key : String) : Option Jval :=
  match canonIndex key with
  | some i => xs.get? i
  | none => none

/-- The property read `cur[p]` performed by each loop step of `getByPath`
(`cur` is already known to be an array or an object there). -/
def readKey : Jval → String → Option Jval
  | Jval.obj fs, key => lookupField fs key
  | Jval.arr xs, key => arrayGet xs key
  | _, _ => none

/-- `path.split(".")` of `formState.ts`, on the embedded strings. -/
def splitPath (path : String) : List String :=
  (path.toList.splitOn '.').map (fun cs => cs.asString)

/-- The traversal loop of `getByPath` (src/frontend/src/ui/formState.ts):
`none` is JS `undefined`; each step first checks the
`cur == null || typeof cur !== "object"` guard, then reads `cur[p]`. -/
def walkPath : Option Jval → List String → Option Jval
  | cur, [] => cur
  | none, _ :: _ => none
  | some c, p :: ps => if isObjLike c then walkPath (readKey c p) ps else none

/-- `getByPath(obj, path)` of src/frontend/src/ui/formState.ts: the empty
path short-circuits to `undefined`, otherwise the dotted parts are walked. -/
def getByPath (o : Jval) (path : String) : Option Jval :=
  if path = "" then none
  else walkPath (some o) (splitPath path)

/-- JS property write on an object list: an existing key is updated in
place (position kept), a new key is appended. -/
def setKey : List (String × Jval) → String → Jval → List (String × Jval)
  | [], key, v => [(key, v)]
  | (k, w) :: fs, key, v =>
      if k = key then (k, v) :: fs else (k, w) :: setKey fs key v

/-- JS element write `xs[key] = v` on an array: canonical in-range index
replaces, the next index appends; sparse writes and expando properties
are outside the model (unreachable from `setByPath`, whose intermediate
nodes are always plain objects). -/
def arraySet (xs : List Jval) (key : String) (v : Jval) : List Jval :=
  match canonIndex key with
  | some i =>
      if i < xs.length then xs.set i v
      else if i = xs.length then xs ++ [v] else xs
  | none => xs

/-- The assignment `cur[key] = value` performed by `setByPath`. -/
def assignKey : Jval → String → Jval → Jval
  | Jval.obj fs, key, v => Jval.obj (setKey fs key v)
  | Jval.arr xs, key, v => Jval.arr (arraySet xs key v)
  | other, _, _ => other

/-- The fields of the JS object spread `{...v}` for a non-empty string
`v` (spreading a string enumerates its characters under index keys). -/
def stringSpreadFields (s : String) : List (String × Jval) :=
  (List.range s.length).map
    (fun i => (Nat.repr i, Jval.str ((s.toList.getD i ' ').toString)))

/-- The root clone `Array.isArray(obj) ? [...obj] : { ...(obj || {}) }`
of `setByPath`: arrays and objects are shallow-copied, falsy roots give
an empty object, a non-empty string root spreads its characters. -/
def rootClone : Jval → Jval
  | Jval.arr xs => Jval.arr xs
  | Jval.obj fs => Jval.obj fs
  | Jval.str s => if s = "" then Jval.obj [] else Jval.obj (stringSpreadFields s)
  | _ => Jval.obj []

/-- The write loop of `setByPath`: on the last part the value is
assigned; on an earlier part the existing child is kept only when it is
a plain (non-array) object — it is then shallow-cloned — otherwise a
fresh empty object replaces it, and the walk continues inside. -/
def setWalk : Jval → List String → Jval → Jval
  | cur, [], _ => cur
  | cur, [key], v => assignKey cur key v
  | cur, key :: k2 :: rest, v =>
      let child : Jval :=
        match readKey cur key with
        | some (Jval.obj fs) => Jval.obj fs
        | _ => Jval.obj []
      assignKey cur key (setWalk child (k2 :: rest) v)

/-- `setByPath(obj, path, value)` of src/frontend/src/ui/formState.ts. -/
def setByPath (o : Jval) (path : String) (v : Jval) : Jval :=
  let parts := splitPath path
  if parts.length = 0 then o
  else setWalk (rootClone o) parts v

/-- `extractArtifacts` of src/frontend/src/ui/formState.ts: the
`artifacts` member when it is a plain (non-array) object, else `{}`. -/
def extractArtifacts (formState : Jval) : Jval :=
  match formState with
  | Jval.obj fs =>
      match lookupField fs "artifacts" with
      | some (Jval.obj afs) => Jval.obj afs
      | _ => Jval.obj []
  | _ => Jval.obj []

/-! ## Decision vocabulary (src/frontend/src/api/types.ts) -/

/-- The closed decision enum of the wire contract:
`"allow" | "reject" | "need_more" | "error"`. -/
inductive Decision : Type where
  | allow : Decision
  | reject : Decision
  | need_more : Decision
  | error : Decision
deriving Repr, DecidableEq

/-- The wire string of each `Decision` value. -/
def decisionWire : Decision → String
  | Decision.allow => "allow"
  | Decision.reject => "reject"
  | Decision.need_more => "need_more"
  | Decision.error => "error"

/-- The four wire strings a `decision` field can carry. -/
def decisionWireStrings : List String :=
  [decisionWire Decision.allow, decisionWire Decision.reject,
   decisionWire Decision.need_more, decisionWire Decision.error]

/-- `isDenied` of `DecisionBlock` (src/unnamed/part_015, also part_016):
`result.decision === "BLOCK"`. -/
def decisionBlockIsDenied (d : Decision) : Bool :=
  decisionWire d == "BLOCK"

/-- `isAdmissionGranted` of src/frontend/src/canon/protocol.ru.ts:
`decision === "allow"`. -/
def isAdmissionGranted (d : Decision) : Bool :=
  decisionWire d == "allow"

/-- The three labels `UI_TEXT_RU.states` that
src/frontend/src/canon/stateLabels.ru.ts reads (the `states` table is
absent from the shipped uiText.ru.ts, so the labels are parameters). -/
structure StateLabels : Type where
  notSubmitted : String
  admissionDenied : String
  statePre : String

/-- `formatAdmissionState` of src/frontend/src/canon/stateLabels.ru.ts:
a falsy (absent or empty) project state gives the not-submitted label,
a last decision equal to "BLOCK" gives the denied label, otherwise the
state is echoed behind the canonical state label. -/
def formatAdmissionState (L : StateLabels)
    (projectState lastDecision : Option String) : String :=
  match projectState with
  | none => L.notSubmitted
  | some ps =>
      if ps = "" then L.notSubmitted
      else if lastDecision == some "BLOCK" then L.admissionDenied
      else L.statePre ++ " " ++ ps

/-! ## Audit page helpers (src/frontend/src/pages/AuditPage.tsx) -/

/-- `isRecord` of AuditPage.tsx: a non-null, non-array object. -/
def isRecordVal : Jval → Bool
  | Jval.obj _ => true
  | _ => false

/-- Whether a value is a JS array. -/
def isArrVal : Jval → Bool
  | Jval.arr _ => true
  | _ => false

/-- The candidate wrapper keys of `normalizeSubmissionsListResponse`,
in the order the code probes them. -/
def candidateKeys : List String :=
  ["items", "submissions", "data", "results"]

/-- The probing loop of `normalizeSubmissionsListResponse`: the first
candidate key whose value is an array yields that array, else `[]`. -/
def firstArrayUnder : List String → List (String × Jval) → List Jval
  | [], _ => []
  | k :: ks, fs =>
      match lookupField fs k with
      | some (Jval.arr xs) => xs
      | _ => firstArrayUnder ks fs

/-- `normalizeSubmissionsListResponse` of AuditPage.tsx: an array
payload is itself the list, a record payload yields the first array
under the candidate keys, anything else yields `[]`. -/
def normalizeSubmissionsListResponse (payload : Jval) : List Jval :=
  match payload with
  | Jval.arr xs => xs
  | Jval.obj fs => firstArrayUnder candidateKeys fs
  | _ => []

/-- The JS property read `a.created_at` performed first by the sort
comparator of AuditPage.tsx: reading a member off `null` throws a
TypeError — the outer `none`; a successful read yields the member
(inner `none` = `undefined`), and on boxed primitives the member is
simply absent. -/
def readCreatedAt : Jval → Option (Option Jval)
  | Jval.null => none
  | Jval.obj fs => some (lookupField fs "created_at")
  | _ => some none

/-- JS truthiness of the values `Jval` represents (a number is falsy
exactly when its mantissa is zero; `NaN` has no representation). -/
def jsFalsy : Jval → Bool
  | Jval.null => true
  | Jval.bool b => !b
  | Jval.num m _ => m == 0
  | Jval.str s => s == ""
  | _ => false

/-- `parseEpoch` of AuditPage.tsx applied to a successful member read:
an absent or falsy argument is `NaN` by the `if (!iso)` guard of the
source; otherwise the result of `Date.parse` on the argument (its
string coercion included), abstracted by `dpv` — `some` a finite epoch,
`none` for `NaN`. -/
def parseEpochModel (dpv : Jval → Option Int) (read : Option Jval) : Option Int :=
  match read with
  | none => none
  | some v => if jsFalsy v then none else dpv v

/-- The sort key of `sortByCreatedAtDesc`: the parsed epoch of the
`created_at` read, with `NaN` mapped to `⊥` (the comparator turns a
`NaN` key into `-Infinity`).  A throwing read also maps to `⊥`, but
that value is never consulted: the sort then returns the thrown error,
and on empty or singleton arrays the comparator never runs. -/
def keyRank (dpv : Jval → Option Int) (item : Jval) : WithBot Int :=
  match readCreatedAt item with
  | some read =>
      match parseEpochModel dpv read with
      | some t => (t : WithBot Int)
      | none => ⊥
  | none => ⊥

/-- The comparator of `sortByCreatedAtDesc` as a total boolean order on
elements whose reads do not throw: `a` may precede `b` exactly when
`a`'s key is not smaller (JS sorts ascending by `bVal - aVal`, i.e.
descending by the key, and a `NaN` comparison result counts as equal). -/
def createdAtLe (dpv : Jval → Option Int) (a b : Jval) : Bool :=
  decide (keyRank dpv b ≤ keyRank dpv a)

/-- `sortByCreatedAtDesc` of AuditPage.tsx: a non-array input gives
`[]`; an array is copied and stably sorted descending by parsed
`created_at`.  The comparator's first action reads `created_at` off
both operands, and a comparison sort of two or more elements evaluates
the comparator at least once for every element, so the call throws a
TypeError (`none`) exactly when the array has at least two elements and
one whose member read throws — a `null` element; with at most one
element the comparator never runs and nothing can throw. -/
def sortByCreatedAtDesc (dpv : Jval → Option Int) (payload : Jval) :
    Option (List Jval) :=
  match payload with
  | Jval.arr xs =>
      if decide (2 ≤ xs.length) && xs.any (fun a => (readCreatedAt a).isNone) then
        none
      else some (xs.mergeSort (createdAtLe dpv))
  | _ => some []

/-! ## JSON.parse model

A fuel-based recursive-descent parser for the JSON grammar, embedding
`JSON.parse` as used by `safeParseJson` (src/unnamed/part_004 and
part_005).  Acceptance follows the JSON grammar; the decoded value of a
`\u` escape outside the valid scalar range and the de-duplication of
repeated object keys (JS keeps the last binding, the field list keeps
both with the first binding shadowing) are value-level simplifications
no verified property depends on. -/

/-- JSON whitespace. -/
def isJsonWs (c : Char) : Bool :=
  c == ' ' || c == '\t' || c == '\n' || c == '\r'

/-- Drop leading JSON whitespace. -/
def skipWs : List Char → List Char
  | [] => []
  | c :: cs => if isJsonWs c then skipWs cs else c :: cs

/-- Hexadecimal digit value. -/
def hexVal (c : Char) : Option Nat :=
  if c.isDigit then some (c.toNat - 48)
  else if 'a' ≤ c && c ≤ 'f' then some (c.toNat - 87)
  else if 'A' ≤ c && c ≤ 'F' then some (c.toNat - 55)
  else none

/-- The body of a JSON string after its opening quote: ordinary
characters up to the closing quote, with the JSON escapes; an
unescaped control character or an unterminated string is refused. -/
def parseStrChars : List Char → Option (List Char × List Char)
  | [] => none
  | c :: rest =>
      if c == '"' then some ([], rest)
      else if c == '\\' then
        match rest with
        | [] => none
        | e :: rest2 =>
            if e == '"' || e == '\\' || e == '/' then
              match parseStrChars rest2 with
              | some (cs, r) => some (e :: cs, r)
              | none => none
            else if e == 'b' then
              match parseStrChars rest2 with
              | some (cs, r) => some (Char.ofNat 8 :: cs, r)
              | none => none
            else if e == 'f' then
              match parseStrChars rest2 with
              | some (cs, r) => some (Char.ofNat 12 :: cs, r)
              | none => none
            else if e == 'n' then
              match parseStrChars rest2 with
              | some (cs, r) => some ('\n' :: cs, r)
              | none => none
            else if e == 'r' then
              match parseStrChars rest2 with
              | some (cs, r) => some ('\r' :: cs, r)
              | none => none
            else if e == 't' then
              match parseStrChars rest2 with
              | some (cs, r) => some ('\t' :: cs, r)
              | none => none
            else if e == 'u' then
              match rest2 with
              | h1 :: h2 :: h3 :: h4 :: rest3 =>
                  match hexVal h1, hexVal h2, hexVal h3, hexVal h4 with
                  | some x, some y, some z, some w =>
                      match parseStrChars rest3 with
                      | some (cs, r) =>
                          some (Char.ofNat (((x * 16 + y) * 16 + z) * 16 + w) :: cs, r)
                      | none => none
                  | _, _, _, _ => none
              | _ => none
            else none
      else if c.toNat < 32 then none
      else
        match parseStrChars rest with
        | some (cs, r) => some (c :: cs, r)
        | none => none
/-- Longest digit run at the head of the input. -/
def spanDigits (cs : List Char) : List Char × List Char :=
  cs.span (fun c => c.isDigit)

/-- A JSON number: optional minus, an integer part without a spurious
leading zero, an optional fraction, an optional exponent; the value is
kept exactly as mantissa and decimal exponent. -/
def parseNumber (cs : List Char) : Option (Jval × List Char) :=
  let (neg, cs1) := match cs with
    | '-' :: t => (true, t)
    | _ => (false, cs)
  match cs1 with
  | [] => none
  | d0 :: _ =>
      if !d0.isDigit then none
      else
        let (ds, cs2) := spanDigits cs1
        if ds.length > 1 && ds.headD '0' == '0' then none
        else
          let fracStep : Option (List Char × List Char) :=
            match cs2 with
            | '.' :: t =>
                let (f, r) := spanDigits t
                if f.isEmpty then none else some (f, r)
            | _ => some ([], cs2)
          match fracStep with
          | none => none
          | some (fds, cs3) =>
              let expStep : Option (Int × List Char) :=
                match cs3 with
                | e :: t =>
                    if e == 'e' || e == 'E' then
                      let (esign, t2) := match t with
                        | '+' :: u => ((1 : Int), u)
                        | '-' :: u => ((-1 : Int), u)
                        | _ => ((1 : Int), t)
                      let (eds, t3) := spanDigits t2
                      if eds.isEmpty then none
                      else some (esign * Int.ofNat (digitsToNat eds), t3)
                    else some (0, cs3)
                | [] => some (0, cs3)
              match expStep with
              | none => none
              | some (ex, cs4) =>
                  let mant : Int :=
                    (if neg then -1 else 1) * Int.ofNat (digitsToNat (ds ++ fds))
                  some (Jval.num mant (ex - Int.ofNat fds.length), cs4)

/-- Literal keyword match. -/
def stripLit (lit : List Char) (cs : List Char) : Option (List Char) :=
  if cs.take lit.length == lit then some (cs.drop lit.length) else none

mutual

/-- A JSON value, leading whitespace allowed. -/
def parseVal : Nat → List Char → Option (Jval × List Char)
  | 0, _ => none
  | Nat.succ f, cs =>
      match skipWs cs with
      | [] => none
      | c :: rest =>
          if c == '\x7b' then parseFields f rest
          else if c == '[' then parseItems f rest
          else if c == '"' then
            match parseStrChars rest with
            | some (body, r) => some (Jval.str body.asString, r)
            | none => none
          else if c == 't' then
            match stripLit ['r', 'u', 'e'] rest with
            | some r => some (Jval.bool true, r)
            | none => none
          else if c == 'f' then
            match stripLit ['a', 'l', 's', 'e'] rest with
            | some r => some (Jval.bool false, r)
            | none => none
          else if c == 'n' then
            match stripLit ['u', 'l', 'l'] rest with
            | some r => some (Jval.null, r)
            | none => none
          else parseNumber (c :: rest)

/-- Array items after `[`: either an immediate `]` or a comma-separated
item list. -/
def parseItems : Nat → List Char → Option (Jval × List Char)
  | 0, _ => none
  | Nat.succ f, cs =>
      match skipWs cs with
      | ']' :: rest => some (Jval.arr [], rest)
      | other => parseItemsLoop f other []

/-- One array item, then `,` and more items or the closing `]`
(accumulator holds the items parsed so far, reversed). -/
def parseItemsLoop : Nat → List Char → List Jval → Option (Jval × List Char)
  | 0, _, _ => none
  | Nat.succ f, cs, acc =>
      match parseVal f cs with
      | some (v, r) =>
          match skipWs r with
          | ',' :: r2 => parseItemsLoop f r2 (v :: acc)
          | ']' :: r2 => some (Jval.arr (v :: acc).reverse, r2)
          | _ => none
      | none => none

/-- Object members after an opening brace: either an immediate closing
brace or a comma-separated member list. -/
def parseFields : Nat → List Char → Option (Jval × List Char)
  | 0, _ => none
  | Nat.succ f, cs =>
      match skipWs cs with
      | '\x7d' :: rest => some (Jval.obj [], rest)
      | other => parseFieldsLoop f other []

/-- One `"key": value` member, then `,` and more members or the closing
brace (accumulator reversed). -/
def parseFieldsLoop : Nat → List Char → List (String × Jval) → Option (Jval × List Char)
  | 0, _, _ => none
  | Nat.succ f, cs, acc =>
      match skipWs cs with
      | '"' :: rest =>
          match parseStrChars rest with
          | some (key, r) =>
              match skipWs r with
              | ':' :: r2 =>
                  match parseVal f r2 with
                  | some (v, r3) =>
                      match skipWs r3 with
                      | ',' :: r4 => parseFieldsLoop f r4 ((key.asString, v) :: acc)
                      | '\x7d' :: r4 => some (Jval.obj ((key.asString, v) :: acc).reverse, r4)
                      | _ => none
                  | none => none
              | _ => none
          | none => none
      | _ => none

end

/-- `JSON.parse`: one JSON value spanning, up to whitespace, the whole
input. -/
def jsonParse (s : String) : Option Jval :=
  match parseVal (s.length + 1) s.toList with
  | some (v, rest) => if (skipWs rest).isEmpty then some v else none
  | none => none

/-- The strict-equality test `v === null`. -/
def jsIsNull : Jval → Bool
  | Jval.null => true
  | _ => false

/-- `safeParseJson` of src/unnamed/part_005 (the same shape as
src/unnamed/part_004): a parse failure or a parsed value that is null,
not of object type, or an array yields the error branch, otherwise the
parsed object is returned. -/
def safeParseJson (text : String) : Except String Jval :=
  match jsonParse text with
  | none => Except.error "invalid JSON"
  | some v =>
      if jsIsNull v || (jsTypeof v != "object") || isArrVal v then
        Except.error "artifacts must be a JSON object"
      else Except.ok v

/-! ## Gate Evaluation Engine

Modelled from the spec: the engine itself (Gate Registry, Rule
Evaluator, State Machine, Submission Ledger, Evaluation Orchestrator of
spec sections 4.1-4.5) ships no source under src/ — only its wire types,
API client and UI consumers do — so the definitions below follow the
spec's words; dotted-path resolution reuses `getByPath`, the traversal
the spec prescribes for artifact bundles. -/

/-- Violation severity: only `error` can block a decision. -/
inductive Severity : Type where
  | error : Severity
  | warning : Severity
deriving Repr, DecidableEq

/-- Modelled from the spec: a Rule of a Gate contract (section 3); its
predicate is abstracted as a boolean check over the resolved value
(`none` = path absent). -/
structure Rule : Type where
  rule_id : String
  artifact_path : String
  check : Option Jval → Bool
  error_code : String
  message : String
  severity : Severity
  uiFieldId : Option String

/-- Modelled from the spec: a Violation carries the rule's code,
message, path, severity and UI binding verbatim. -/
structure Violation : Type where
  code : String
  message : String
  path : String
  severity : Severity
  ruleId : String
  uiFieldId : Option String
deriving Repr, DecidableEq

/-- Modelled from the spec: a Gate contract (section 3): ordered rules,
required artifact paths, and the transition target of an `allow`
decision (`reject`/`need_more` keep the current state, so only the
`allow` column of the transition table carries information). -/
structure GateContract : Type where
  gate_id : String
  gate_version : String
  rules : List Rule
  required_artifact_paths : List String
  allowTarget : String
  nextGate : Option (String × String)

/-- The Violation a failed rule emits. -/
def violationOfRule (r : Rule) : Violation :=
  { code := r.error_code, message := r.message, path := r.artifact_path,
    severity := r.severity, ruleId := r.rule_id, uiFieldId := r.uiFieldId }

/-- Modelled from the spec: the Rule Evaluator (section 4.2): rules are
inspected in declared order; each rule resolves its path with the
dotted-path traversal and emits at most one Violation on predicate
failure, so violations preserve rule declaration order. -/
def evaluateRules (bundle : Jval) (g : GateContract) : List Violation :=
  g.rules.filterMap fun r =>
    if r.check (getByPath bundle r.artifact_path) then none
    else some (violationOfRule r)

/-- Whether any emitted Violation has `error` severity. -/
def hasErrorViolation (vs : List Violation) : Bool :=
  vs.any fun v => v.severity == Severity.error

/-- Whether some required artifact path fails to resolve at all. -/
def missingRequired (bundle : Jval) (g : GateContract) : Bool :=
  g.required_artifact_paths.any fun p => (getByPath bundle p).isNone

/-- Modelled from the spec: decision derivation (section 4.2): an
`error`-severity Violation gives `reject`; else an unresolved required
path gives `need_more`; else `allow`. -/
def deriveDecision (vs : List Violation) (gap : Bool) : Decision :=
  if hasErrorViolation vs then Decision.reject
  else if gap then Decision.need_more
  else Decision.allow

/-- Modelled from the spec: `evaluate(bundle, gateContract)`: the
ordered violations and the derived decision. -/
def evaluateGate (bundle : Jval) (g : GateContract) : List Violation × Decision :=
  let vs := evaluateRules bundle g
  (vs, deriveDecision vs (missingRequired bundle g))

/-- Modelled from the spec: the State Machine (section 4.3): `allow`
moves to the Gate's configured successor, every other decision —
including `error` — leaves the current state untouched. -/
def transition (g : GateContract) (d : Decision) (cur : String) : String :=
  match d with
  | Decision.allow => g.allowTarget
  | _ => cur

/-- Modelled from the spec: a Project record (section 3). -/
structure Project : Type where
  id : String
  current_state : String
  current_gate_id : String
  current_gate_version : String

/-- Modelled from the spec: an immutable Submission record
(section 3). -/
structure Submission : Type where
  submission_id : Nat
  project_id : String
  request : Jval
  decision : Decision
  errors : List Violation
  gate_id : String
  gate_version : String
  state_before : String
  state_after : String

/-- Modelled from the spec: the engine's durable state — the project
directory, the read-only Gate Registry, and the append-only Submission
Ledger. -/
structure SysState : Type where
  projects : List Project
  registry : List GateContract
  ledger : List Submission

/-- Modelled from the spec: the EvaluationResult returned to the caller
(section 6); `project_state` is absent when the project itself is
unknown, `submission_id` is absent when nothing was durably recorded. -/
structure EvalResult : Type where
  decision : Decision
  errors : List Violation
  submission_id : Option Nat
  project_state : Option String
  next_state : Option String

/-- Project directory lookup. -/
def findProject (st : SysState) (pid : String) : Option Project :=
  st.projects.find? fun p => p.id == pid

/-- Gate Registry lookup by exact `(gate_id, version)` key. -/
def findGate (st : SysState) (gid gver : String) : Option GateContract :=
  st.registry.find? fun g => g.gate_id == gid && g.gate_version == gver

/-- The ledger-assigned, monotonically growing submission id. -/
def nextSubmissionId (st : SysState) : Nat :=
  st.ledger.length

/-- The project-directory update of an `allow` decision: the matching
project's state and Gate pointer move to the Gate's next step. -/
def updateProjectState (ps : List Project) (pid newState : String)
    (g : GateContract) : List Project :=
  ps.map fun p =>
    if p.id == pid then
      { p with
        current_state := newState,
        current_gate_id := ((g.nextGate.map Prod.fst).getD p.current_gate_id),
        current_gate_version := ((g.nextGate.map Prod.snd).getD p.current_gate_version) }
    else p

/-- Modelled from the spec: the Evaluation Orchestrator (section 4.5),
with the ledger's persistence abstracted by `persistOk`:  an unknown
project gives an `error` decision and no ledger entry; an unknown Gate
gives an `error` decision still written to the ledger with
`state_after == state_before`; a persistence fault aborts the whole
evaluation with no partial effect, an `error` decision and no
submission id; otherwise the evaluation is appended and an `allow`
decision atomically advances the project. -/
def orchestrate (st : SysState) (persistOk : Bool) (pid : String)
    (bundle : Jval) : SysState × EvalResult :=
  match findProject st pid with
  | none =>
      (st, { decision := Decision.error, errors := [], submission_id := none,
             project_state := none, next_state := none })
  | some p =>
      match findGate st p.current_gate_id p.current_gate_version with
      | none =>
          if persistOk then
            let sub : Submission :=
              { submission_id := nextSubmissionId st, project_id := pid,
                request := bundle, decision := Decision.error, errors := [],
                gate_id := p.current_gate_id,
                gate_version := p.current_gate_version,
                state_before := p.current_state,
                state_after := p.current_state }
            ({ st with ledger := st.ledger ++ [sub] },
             { decision := Decision.error, errors := [],
               submission_id := some sub.submission_id,
               project_state := some p.current_state, next_state := none })
          else
            (st, { decision := Decision.error, errors := [],
                   submission_id := none,
                   project_state := some p.current_state, next_state := none })
      | some g =>
          let vs := (evaluateGate bundle g).1
          let d := (evaluateGate bundle g).2
          let ns := transition g d p.current_state
          if persistOk then
            let sub : Submission :=
              { submission_id := nextSubmissionId st, project_id := pid,
                request := bundle, decision := d, errors := vs,
                gate_id := g.gate_id, gate_version := g.gate_version,
                state_before := p.current_state, state_after := ns }
            ({ st with
                ledger := st.ledger ++ [sub],
                projects :=
                  if d == Decision.allow then
                    updateProjectState st.projects pid ns g
                  else st.projects },
             { decision := d, errors := vs,
               submission_id := some sub.submission_id,
               project_state := some p.current_state, next_state := some ns })
          else
            (st, { decision := Decision.error, errors := [],
                   submission_id := none,
                   project_state := some p.current_state, next_state := none })

/-- The observable admission state of a project. -/
def stateOf (st : SysState) (pid : String) : Option String :=
  (findProject st pid).map fun p => p.current_state

/-! ## Concrete fixtures used by witnesses -/

/-- A presence rule of `error` severity over path "a". -/
def rulePresenceA : Rule :=
  { rule_id := "R1", artifact_path := "a", check := fun v => v.isSome,
    error_code := "E1", message := "a is required",
    severity := Severity.error, uiFieldId := none }

/-- A gate with one blocking presence rule and one required path. -/
def gateOneRule : GateContract :=
  { gate_id := "G1", gate_version := "v1", rules := [rulePresenceA],
    required_artifact_paths := ["a"], allowTarget := "S2", nextGate := none }

/-- A gate with no rules and one required path. -/
def gateNoRules : GateContract :=
  { gate_id := "G2", gate_version := "v1", rules := [],
    required_artifact_paths := ["a"], allowTarget := "S3", nextGate := none }

/-- The empty artifact bundle. -/
def bundleEmpty : Jval := Jval.obj []

/-- A bundle resolving path "a". -/
def bundleWithA : Jval := Jval.obj [("a", Jval.num 1 0)]

/-- A concrete warning-severity violation. -/
def warnViolation : Violation :=
  { code := "W1", message := "advice", path := "a",
    severity := Severity.warning, ruleId := "RW", uiFieldId := none }

/-- A project sitting at gate `(G1, v1)`. -/
def projP1 : Project :=
  { id := "p1", current_state := "S1",
    current_gate_id := "G1", current_gate_version := "v1" }

/-- A system state with one project whose gate is registered. -/
def sysWithProject : SysState :=
  { projects := [projP1], registry := [gateOneRule], ledger := [] }

/-- The empty system state: no projects, no gates, empty ledger. -/
def emptySysState : SysState :=
  { projects := [], registry := [], ledger := [] }

/-! ## Claim theorems -/

/-- C1: for every artifact bundle and Gate contract the decision is
derived as: an `error`-severity Violation gives `reject`; otherwise an
unresolvable required artifact path gives `need_more`; otherwise
`allow`; every failed rule's Violation — warnings included — appears in
the output, and a warning-severity Violation never changes the derived
decision. -/
theorem decision_derivation_c1 (bundle : Jval) (g : GateContract) :
    ((∃ v ∈ evaluateRules bundle g, v.severity = Severity.error) →
      (evaluateGate bundle g).2 = Decision.reject) ∧
    ((¬ ∃ v ∈ evaluateRules bundle g, v.severity = Severity.error) →
      (∃ p ∈ g.required_artifact_paths, getByPath bundle p = none) →
      (evaluateGate bundle g).2 = Decision.need_more) ∧
    ((¬ ∃ v ∈ evaluateRules bundle g, v.severity = Severity.error) →
      (¬ ∃ p ∈ g.required_artifact_paths, getByPath bundle p = none) →
      (evaluateGate bundle g).2 = Decision.allow) ∧
    (∀ r ∈ g.rules, r.check (getByPath bundle r.artifact_path) = false →
      violationOfRule r ∈ evaluateRules bundle g) ∧
    (∀ (w : Violation) (vs : List Violation) (gap : Bool),
      w.severity = Severity.warning →
      deriveDecision (w :: vs) gap = deriveDecision vs gap) := by
  have herr : hasErrorViolation (evaluateRules bundle g) = true ↔
      ∃ v ∈ evaluateRules bundle g, v.severity = Severity.error := by
    simp [hasErrorViolation, List.any_eq_true, beq_iff_eq]
  have hmiss : missingRequired bundle g = true ↔
      ∃ p ∈ g.required_artifact_paths, getByPath bundle p = none := by
    simp [missingRequired, List.any_eq_true, Option.isNone_iff_eq_none]
  refine ⟨?_, ?_, ?_, ?_, ?_⟩
  · intro h
    simp [evaluateGate, deriveDecision, herr.mpr h]
  · intro h1 h2
    have e1 : hasErrorViolation (evaluateRules bundle g) = false := by
      rcases Bool.eq_false_or_eq_true (hasErrorViolation (evaluateRules bundle g)) with h | h
      · exact absurd (herr.mp h) h1
      · exact h
    simp [evaluateGate, deriveDecision, e1, hmiss.mpr h2]
  · intro h1 h2
    have e1 : hasErrorViolation (evaluateRules bundle g) = false := by
      rcases Bool.eq_false_or_eq_true (hasErrorViolation (evaluateRules bundle g)) with h | h
      · exact absurd (herr.mp h) h1
      · exact h
    have e2 : missingRequired bundle g = false := by
      rcases Bool.eq_false_or_eq_true (missingRequired bundle g) with h | h
      · exact absurd (hmiss.mp h) h2
      · exact h
    simp [evaluateGate, deriveDecision, e1, e2]
  · intro r hr hfail
    exact List.mem_filterMap.mpr ⟨r, hr, by simp [hfail]⟩
  · intro w vs gap hw
    simp [deriveDecision, hasErrorViolation, List.any_cons, hw, beq_iff_eq]

/-- Witness for C1 at concrete gates and bundles: an error violation
forces `reject`, a bare required-path gap forces `need_more`, a clean
bundle gets `allow`, a failed rule's violation is emitted, and a
prepended warning changes nothing. -/
theorem decision_derivation_c1_witness :
    (evaluateGate bundleEmpty gateOneRule).2 = Decision.reject ∧
    (evaluateGate bundleEmpty gateNoRules).2 = Decision.need_more ∧
    (evaluateGate bundleWithA gateNoRules).2 = Decision.allow ∧
    violationOfRule rulePresenceA ∈ evaluateRules bundleEmpty gateOneRule ∧
    deriveDecision [warnViolation] false = deriveDecision [] false := by
  refine ⟨?_, ?_, ?_, ?_, ?_⟩
  · exact (decision_derivation_c1 bundleEmpty gateOneRule).1
      ⟨violationOfRule rulePresenceA, by
        constructor, rfl⟩
  · exact (decision_derivation_c1 bundleEmpty gateNoRules).2.1
      (by simp [evaluateRules, gateNoRules]) ⟨"a", by simp [gateNoRules], rfl⟩
  · exact (decision_derivation_c1 bundleWithA gateNoRules).2.2.1
      (by simp [evaluateRules, gateNoRules])
      (by simp [gateNoRules, getByPath, splitPath, walkPath, readKey,
                bundleWithA, isObjLike, lookupField])
  · exact (decision_derivation_c1 bundleEmpty gateOneRule).2.2.2.1
      rulePresenceA (by simp [gateOneRule]) rfl
  · exact (decision_derivation_c1 bundleEmpty gateOneRule).2.2.2.2
      warnViolation [] false rfl

/-- C6: a `reject` or `need_more` decision always comes with an
`error`-severity violation or an unresolved required path, and an
`allow` decision carries no `error`-severity violation. -/
theorem blocking_decision_has_cause_c6 (bundle : Jval) (g : GateContract) :
    (((evaluateGate bundle g).2 = Decision.reject ∨
      (evaluateGate bundle g).2 = Decision.need_more) →
      (∃ v ∈ (evaluateGate bundle g).1, v.severity = Severity.error) ∨
      (∃ p ∈ g.required_artifact_paths, getByPath bundle p = none)) ∧
    ((evaluateGate bundle g).2 = Decision.allow →
      ∀ v ∈ (evaluateGate bundle g).1, ¬ v.severity = Severity.error) := by
  have herr : hasErrorViolation (evaluateRules bundle g) = true ↔
      ∃ v ∈ evaluateRules bundle g, v.severity = Severity.error := by
    simp [hasErrorViolation, List.any_eq_true, beq_iff_eq]
  have hmiss : missingRequired bundle g = true ↔
      ∃ p ∈ g.required_artifact_paths, getByPath bundle p = none := by
    simp [missingRequired, List.any_eq_true, Option.isNone_iff_eq_none]
  constructor
  · intro hd
    rcases Bool.eq_false_or_eq_true (hasErrorViolation (evaluateRules bundle g))
      with he | he
    · exact Or.inl (herr.mp he)
    · rcases Bool.eq_false_or_eq_true (missingRequired bundle g) with hm | hm
      · exact Or.inr (hmiss.mp hm)
      · exfalso
        have hall : (evaluateGate bundle g).2 = Decision.allow := by
          simp [evaluateGate, deriveDecision, he, hm]
        rcases hd with hd | hd <;> rw [hall] at hd <;> exact Decision.noConfusion hd
  · intro hd v hv he
    have hEv : hasErrorViolation (evaluateRules bundle g) = true :=
      herr.mpr ⟨v, hv, he⟩
    have : (evaluateGate bundle g).2 = Decision.reject := by
      simp [evaluateGate, deriveDecision, hEv]
    rw [this] at hd
    exact Decision.noConfusion hd

/-- Witness for C6: at the empty bundle the one-rule gate rejects with
an error-severity cause, and at a resolving bundle the rule-free gate
allows with no error-severity violation. -/
theorem blocking_decision_has_cause_c6_witness :
    ((∃ v ∈ (evaluateGate bundleEmpty gateOneRule).1,
        v.severity = Severity.error) ∨
      (∃ p ∈ gateOneRule.required_artifact_paths,
        getByPath bundleEmpty p = none)) ∧
    (∀ v ∈ (evaluateGate bundleWithA gateNoRules).1,
      ¬ v.severity = Severity.error) := by
  constructor
  · exact (blocking_decision_has_cause_c6 bundleEmpty gateOneRule).1
      (Or.inl rfl)
  · exact (blocking_decision_has_cause_c6 bundleWithA gateNoRules).2 rfl

/-- C7: the Rule Evaluator is a pure function of the bundle and the
Gate contract, so two evaluations of the same inputs return identical
violation lists and decisions. -/
theorem evaluate_deterministic_c7 (bundle : Jval) (g : GateContract)
    (r1 r2 : List Violation × Decision)
    (h1 : r1 = evaluateGate bundle g) (h2 : r2 = evaluateGate bundle g) :
    r1 = r2 :=
  h1.trans h2.symm

/-- Witness for C7 at a concrete bundle and gate. -/
theorem evaluate_deterministic_c7_witness :
    evaluateGate bundleWithA gateOneRule = evaluateGate bundleWithA gateOneRule :=
  evaluate_deterministic_c7 bundleWithA gateOneRule _ _ rfl rfl

/-- C4: the decision vocabulary is exactly the four wire strings
`allow`, `reject`, `need_more`, `error`; no decision value ever equals
"BLOCK", so the `result.decision === "BLOCK"` test of
`DecisionBlock.isDenied` is false for every decision — including
`reject`, the decision it was meant to recognise. -/
theorem decision_vocabulary_c4 :
    (∀ d : Decision, decisionWire d ∈ decisionWireStrings) ∧
    (∀ d : Decision, (decisionWire d == "BLOCK") = false) ∧
    (∀ d : Decision, decisionBlockIsDenied d = false) ∧
    decisionBlockIsDenied Decision.reject = false := by
  refine ⟨?_, ?_, ?_, rfl⟩ <;> intro d <;> cases d <;> decide


/-- `find?` over the `allow`-update of the project directory: the found
project, if any, is the updated image of the one found before. -/
theorem findProject_updateProjectState (ps : List Project) (pid ns : String)
    (g : GateContract) :
    (updateProjectState ps pid ns g).find? (fun p => p.id == pid) =
      ((ps.find? fun p => p.id == pid).map fun p =>
        { p with
          current_state := ns,
          current_gate_id := ((g.nextGate.map Prod.fst).getD p.current_gate_id),
          current_gate_version :=
            ((g.nextGate.map Prod.snd).getD p.current_gate_version) }) := by
  induction ps with
  | nil => rfl
  | cons p ps ih =>
      by_cases h : p.id = pid
      · have hb : (p.id == pid) = true := beq_iff_eq.mpr h
        simp only [updateProjectState, List.map_cons, hb, if_true,
          List.find?_cons, Option.map_some]
        rfl
      · have hb : (p.id == pid) = false := beq_false_of_ne h
        have hhead : updateProjectState (p :: ps) pid ns g =
            p :: updateProjectState ps pid ns g := by
          simp [updateProjectState, hb, h]
        rw [hhead, List.find?_cons, hb, List.find?_cons, hb]
        exact ih

/-- The observable state of a project depends only on the project
directory, not on the ledger or the registry. -/
theorem stateOf_congr (st1 st2 : SysState) (pid : String)
    (h : st1.projects = st2.projects) : stateOf st1 pid = stateOf st2 pid := by
  unfold stateOf findProject
  rw [h]

/-- C2 (amended): the ledger is append-only — an evaluation call for an
existing project with working persistence appends exactly one
Submission and touches no existing entry; an unknown project or a
persistence fault leaves the ledger exactly as it was and reports no
submission id. -/
theorem ledger_append_only_c2 (st : SysState) (persistOk : Bool)
    (pid : String) (bundle : Jval) :
    ((findProject st pid).isSome = true → persistOk = true →
      ∃ s, (orchestrate st persistOk pid bundle).1.ledger = st.ledger ++ [s]) ∧
    (findProject st pid = none →
      (orchestrate st persistOk pid bundle).1.ledger = st.ledger ∧
      (orchestrate st persistOk pid bundle).2.submission_id = none) ∧
    (persistOk = false →
      (orchestrate st persistOk pid bundle).1.ledger = st.ledger ∧
      (orchestrate st persistOk pid bundle).2.submission_id = none) := by
  refine ⟨?_, ?_, ?_⟩
  · intro hp hpk
    subst hpk
    cases hfp : findProject st pid with
    | none => rw [hfp] at hp; exact absurd hp (by simp)
    | some p =>
        cases hfg : findGate st p.current_gate_id p.current_gate_version with
        | none => exact ⟨_, by simp [orchestrate, hfp, hfg]; rfl⟩
        | some g => exact ⟨_, by simp [orchestrate, hfp, hfg]; rfl⟩
  · intro hfp
    constructor <;> simp [orchestrate, hfp]
  · intro hpk
    subst hpk
    cases hfp : findProject st pid with
    | none => constructor <;> simp [orchestrate, hfp]
    | some p =>
        cases hfg : findGate st p.current_gate_id p.current_gate_version with
        | none => constructor <;> simp [orchestrate, hfp, hfg]
        | some g => constructor <;> simp [orchestrate, hfp, hfg]

/-- Witness for C2 at concrete system states: an existing project with
persistence appends one record; an unknown project and a persistence
fault append none. -/
theorem ledger_append_only_c2_witness :
    (∃ s, (orchestrate sysWithProject true "p1" bundleEmpty).1.ledger =
      sysWithProject.ledger ++ [s]) ∧
    (orchestrate emptySysState true "p1" bundleEmpty).1.ledger =
      emptySysState.ledger ∧
    (orchestrate sysWithProject false "p1" bundleEmpty).1.ledger =
      sysWithProject.ledger := by
  refine ⟨?_, ?_, ?_⟩
  · exact (ledger_append_only_c2 sysWithProject true "p1" bundleEmpty).1 rfl rfl
  · exact ((ledger_append_only_c2 emptySysState true "p1" bundleEmpty).2.1 rfl).1
  · exact ((ledger_append_only_c2 sysWithProject false "p1" bundleEmpty).2.2 rfl).1

/-- Counterexample to C2 as stated: evaluating a nonexistent project
creates no Submission at all — the ledger stays empty and the caller
receives no submission id — where the claim requires exactly one
Submission to be created for every outcome, including an unknown
project. -/
theorem ledger_append_only_c2_counterexample :
    (orchestrate emptySysState true "p1" (Jval.obj [])).1.ledger.length = 0 ∧
    (orchestrate emptySysState true "p1" (Jval.obj [])).2.submission_id = none :=
  ⟨rfl, rfl⟩

/-- C5: a decision of `reject`, `need_more` or `error` leaves the
project's current state unchanged, and a decision of `allow` moves it
exactly to the active Gate's configured successor state. -/
theorem state_transition_c5 (st : SysState) (persistOk : Bool)
    (pid : String) (bundle : Jval) :
    ((orchestrate st persistOk pid bundle).2.decision = Decision.reject →
      stateOf (orchestrate st persistOk pid bundle).1 pid = stateOf st pid) ∧
    ((orchestrate st persistOk pid bundle).2.decision = Decision.need_more →
      stateOf (orchestrate st persistOk pid bundle).1 pid = stateOf st pid) ∧
    ((orchestrate st persistOk pid bundle).2.decision = Decision.error →
      stateOf (orchestrate st persistOk pid bundle).1 pid = stateOf st pid) ∧
    ((orchestrate st persistOk pid bundle).2.decision = Decision.allow →
      ∃ p g, findProject st pid = some p ∧
        findGate st p.current_gate_id p.current_gate_version = some g ∧
        stateOf (orchestrate st persistOk pid bundle).1 pid =
          some g.allowTarget) := by
  have main : ((orchestrate st persistOk pid bundle).2.decision ≠ Decision.allow →
      stateOf (orchestrate st persistOk pid bundle).1 pid = stateOf st pid) ∧
      ((orchestrate st persistOk pid bundle).2.decision = Decision.allow →
        ∃ p g, findProject st pid = some p ∧
          findGate st p.current_gate_id p.current_gate_version = some g ∧
          stateOf (orchestrate st persistOk pid bundle).1 pid =
            some g.allowTarget) := by
    cases hfp : findProject st pid with
    | none =>
        constructor
        · intro _
          exact stateOf_congr _ _ pid (by simp [orchestrate, hfp])
        · intro hd
          have he : (orchestrate st persistOk pid bundle).2.decision =
              Decision.error := by simp [orchestrate, hfp]
          exact absurd (hd.symm.trans he) (by decide)
    | some p =>
        cases hfg : findGate st p.current_gate_id p.current_gate_version with
        | none =>
            constructor
            · intro _
              refine stateOf_congr _ _ pid ?_
              cases persistOk <;> simp [orchestrate, hfp, hfg]
            · intro hd
              have he : (orchestrate st persistOk pid bundle).2.decision =
                  Decision.error := by
                cases persistOk <;> simp [orchestrate, hfp, hfg]
              exact absurd (hd.symm.trans he) (by decide)
        | some g =>
            cases persistOk with
            | false =>
                constructor
                · intro _
                  exact stateOf_congr _ _ pid (by simp [orchestrate, hfp, hfg])
                · intro hd
                  have he : (orchestrate st false pid bundle).2.decision =
                      Decision.error := by simp [orchestrate, hfp, hfg]
                  exact absurd (hd.symm.trans he) (by decide)
            | true =>
                have hdec : (orchestrate st true pid bundle).2.decision =
                    (evaluateGate bundle g).2 := by
                  simp [orchestrate, hfp, hfg]
                cases hd : (evaluateGate bundle g).2 with
                | allow =>
                    constructor
                    · intro hne
                      exact absurd (hdec.trans hd) hne
                    · intro _
                      refine ⟨p, g, rfl, hfg, ?_⟩
                      have hproj : (orchestrate st true pid bundle).1.projects =
                          updateProjectState st.projects pid g.allowTarget g := by
                        simp [orchestrate, hfp, hfg, hd, transition]
                      unfold stateOf findProject
                      rw [hproj, findProject_updateProjectState]
                      have hfind : st.projects.find? (fun q => q.id == pid) =
                          some p := hfp
                      rw [hfind]
                      rfl
                | reject =>
                    constructor
                    · intro _
                      refine stateOf_congr _ _ pid ?_
                      simp [orchestrate, hfp, hfg, hd]
                    · intro hda
                      exact absurd (hda.symm.trans (hdec.trans hd)) (by decide)
                | need_more =>
                    constructor
                    · intro _
                      refine stateOf_congr _ _ pid ?_
                      simp [orchestrate, hfp, hfg, hd]
                    · intro hda
                      exact absurd (hda.symm.trans (hdec.trans hd)) (by decide)
                | error =>
                    constructor
                    · intro _
                      refine stateOf_congr _ _ pid ?_
                      simp [orchestrate, hfp, hfg, hd]
                    · intro hda
                      exact absurd (hda.symm.trans (hdec.trans hd)) (by decide)
  refine ⟨?_, ?_, ?_, main.2⟩
  · intro hd
    exact main.1 (by rw [hd]; decide)
  · intro hd
    exact main.1 (by rw [hd]; decide)
  · intro hd
    exact main.1 (by rw [hd]; decide)

/-- Witness for C5: a concrete `reject` evaluation leaves the project
state at "S1", a concrete `allow` evaluation moves it to the gate's
configured successor "S2", and an unknown project's `error` outcome
changes nothing. -/
theorem state_transition_c5_witness :
    stateOf (orchestrate sysWithProject true "p1" bundleEmpty).1 "p1" =
      stateOf sysWithProject "p1" ∧
    (∃ p g, findProject sysWithProject "p1" = some p ∧
      findGate sysWithProject p.current_gate_id p.current_gate_version = some g ∧
      stateOf (orchestrate sysWithProject true "p1" bundleWithA).1 "p1" =
        some g.allowTarget) ∧
    stateOf (orchestrate emptySysState true "p0" bundleEmpty).1 "p0" =
      stateOf emptySysState "p0" := by
  refine ⟨?_, ?_, ?_⟩
  · exact (state_transition_c5 sysWithProject true "p1" bundleEmpty).1 rfl
  · exact (state_transition_c5 sysWithProject true "p1" bundleWithA).2.2.2 rfl
  · exact (state_transition_c5 emptySysState true "p0" bundleEmpty).2.2.1 rfl

/-- Walking from JS `undefined` yields `undefined` whatever the path. -/
theorem walkPath_none (ps : List String) : walkPath none ps = none := by
  cases ps <;> rfl

/-- The traversal loop splits over list append. -/
theorem walkPath_append (cur : Option Jval) (l1 l2 : List String) :
    walkPath cur (l1 ++ l2) = walkPath (walkPath cur l1) l2 := by
  induction l1 generalizing cur with
  | nil => cases cur <;> rfl
  | cons p ps ih =>
      cases cur with
      | none => simp [walkPath, walkPath_none]
      | some c =>
          cases hc : isObjLike c with
          | true => simp [walkPath, hc, ih]
          | false => simp [walkPath, hc, walkPath_none]

/-- C3: dotted-path resolution is total and needs no exception: once
the walk reaches an intermediate cursor that is missing, null or not an
object while parts of the path remain, the whole resolution is absent
(`undefined`), and a type-mismatched intermediate behaves identically
to a missing one. -/
theorem path_resolution_absent_c3 :
    (∀ (o : Jval) (path : String) (pre post : List String),
      path ≠ "" → splitPath path = pre ++ post → post ≠ [] →
      (walkPath (some o) pre = none ∨
        ∃ w, walkPath (some o) pre = some w ∧ isObjLike w = false) →
      getByPath o path = none) ∧
    (∀ (w : Jval) (ps : List String), ps ≠ [] → isObjLike w = false →
      walkPath (some w) ps = walkPath none ps) := by
  constructor
  · intro o path pre post hp hsplit hpost hbad
    unfold getByPath
    rw [if_neg hp, hsplit, walkPath_append]
    rcases hbad with hb | ⟨w, hw, hwo⟩
    · rw [hb, walkPath_none]
    · rw [hw]
      cases post with
      | nil => exact absurd rfl hpost
      | cons q qs => simp [walkPath, hwo]
  · intro w ps hps hw
    cases ps with
    | nil => exact absurd rfl hps
    | cons q qs => simp [walkPath, hw, walkPath_none]

/-- Witness for C3: resolving "a.b.c" against an object whose "a" is a
number — a type-mismatched intermediate — is absent, and walking from
that number equals walking from a missing value. -/
theorem path_resolution_absent_c3_witness :
    getByPath (Jval.obj [("a", Jval.num 1 0)]) "a.b.c" = none ∧
    walkPath (some (Jval.num 1 0)) ["b"] = walkPath none ["b"] := by
  constructor
  · exact path_resolution_absent_c3.1 (Jval.obj [("a", Jval.num 1 0)])
      "a.b.c" ["a"] ["b", "c"] (by decide) (by decide) (by decide)
      (Or.inr ⟨Jval.num 1 0, rfl, rfl⟩)
  · exact path_resolution_absent_c3.2 (Jval.num 1 0) ["b"] (by decide) rfl

/-- A JS property write is read back: looking up the written key finds
the written value. -/
theorem lookupField_setKey (fs : List (String × Jval)) (k : String) (v : Jval) :
    lookupField (setKey fs k v) k = some v := by
  induction fs with
  | nil => simp [setKey, lookupField]
  | cons kv fs ih =>
      obtain ⟨k2, w⟩ := kv
      by_cases h : k2 = k
      · simp [setKey, h, lookupField]
      · simp [setKey, h, lookupField, ih]

/-- Reading back along the parts just written by the `setByPath` loop
yields the written value. -/
theorem walkPath_setWalk (v : Jval) (parts : List String) :
    ∀ fs : List (String × Jval), parts ≠ [] →
      walkPath (some (setWalk (Jval.obj fs) parts v)) parts = some v := by
  induction parts with
  | nil => intro fs h; exact absurd rfl h
  | cons k rest ih =>
      intro fs _
      cases rest with
      | nil =>
          show walkPath (some (assignKey (Jval.obj fs) k v)) [k] = some v
          simp [assignKey, walkPath, isObjLike, readKey, lookupField_setKey]
      | cons k2 rest2 =>
          have hchild : ∃ cfs, (match readKey (Jval.obj fs) k with
              | some (Jval.obj cfs) => Jval.obj cfs
              | _ => Jval.obj []) = Jval.obj cfs := by
            cases hr : readKey (Jval.obj fs) k with
            | none => exact ⟨[], rfl⟩
            | some w =>
                cases w with
                | obj cfs => exact ⟨cfs, rfl⟩
                | null => exact ⟨[], rfl⟩
                | bool b => exact ⟨[], rfl⟩
                | num m e => exact ⟨[], rfl⟩
                | str s => exact ⟨[], rfl⟩
                | arr xs => exact ⟨[], rfl⟩
          obtain ⟨cfs, hcfs⟩ := hchild
          have hsw : setWalk (Jval.obj fs) (k :: k2 :: rest2) v =
              assignKey (Jval.obj fs) k (setWalk (Jval.obj cfs) (k2 :: rest2) v) := by
            simp only [setWalk]
            rw [hcfs]
          rw [hsw]
          show walkPath
            (some (Jval.obj (setKey fs k (setWalk (Jval.obj cfs) (k2 :: rest2) v))))
            (k :: k2 :: rest2) = some v
          simp only [walkPath, isObjLike, if_true, readKey, lookupField_setKey]
          exact ih cfs (by simp)

/-- The dotted split of any path is a non-empty list of parts. -/
theorem splitPath_ne_nil (path : String) : splitPath path ≠ [] := by
  unfold splitPath
  intro h
  exact List.splitOnP_ne_nil _ _ (List.map_eq_nil_iff.mp h)

/-- C8: writing a value at a non-empty dotted path into an object tree
and resolving the same path reads the written value back; the input
tree itself is untouched — the embedding is the pure clone-along-path
function the source implements, so the original object is shared, never
mutated. -/
theorem set_get_roundtrip_c8 (fs : List (String × Jval)) (path : String)
    (v : Jval) (hp : path ≠ "") :
    getByPath (setByPath (Jval.obj fs) path v) path = some v := by
  have hs : splitPath path ≠ [] := splitPath_ne_nil path
  have hlen : ¬ (splitPath path).length = 0 := by
    simpa using hs
  unfold setByPath
  rw [if_neg hlen]
  show getByPath (setWalk (Jval.obj fs) (splitPath path) v) path = some v
  unfold getByPath
  rw [if_neg hp]
  exact walkPath_setWalk v (splitPath path) fs hs

/-- Witness for C8 at the empty object and the path "a.b". -/
theorem set_get_roundtrip_c8_witness :
    ("a.b" : String) ≠ "" ∧
    getByPath (setByPath (Jval.obj []) "a.b" (Jval.num 7 0)) "a.b" =
      some (Jval.num 7 0) :=
  ⟨by decide, set_get_roundtrip_c8 [] "a.b" (Jval.num 7 0) (by decide)⟩


/-- The guard of `safeParseJson` — null, non-object `typeof`, or array —
rejects exactly the values that are not plain JSON objects. -/
theorem safeParseGuard_eq_not_isRecordVal (v : Jval) :
    (jsIsNull v || (jsTypeof v != "object") || isArrVal v) =
      !isRecordVal v := by
  cases v <;> rfl

/-- C9: `safeParseJson` is total — it returns `ok` exactly when the
input parses as JSON to a non-null, non-array object (and then returns
that parsed object), and returns an error message on every other input:
invalid JSON, null, scalars or arrays. -/
theorem safe_parse_json_c9 (s : String) :
    (∀ v, safeParseJson s = Except.ok v ↔
      (jsonParse s = some v ∧ isRecordVal v = true)) ∧
    ((∃ m, safeParseJson s = Except.error m) ↔
      ¬ ∃ v, jsonParse s = some v ∧ isRecordVal v = true) := by
  cases hj : jsonParse s with
  | none =>
      have hsp : safeParseJson s = Except.error "invalid JSON" := by
        simp [safeParseJson, hj]
      constructor
      · intro v
        constructor
        · intro h
          rw [hsp] at h
          exact Except.noConfusion h
        · rintro ⟨hv, _⟩
          exact Option.noConfusion hv
      · constructor
        · rintro _ ⟨v, hv, _⟩
          exact Option.noConfusion hv
        · intro _
          exact ⟨_, hsp⟩
  | some v =>
      cases hr : isRecordVal v with
      | true =>
          have hsp : safeParseJson s = Except.ok v := by
            simp [safeParseJson, hj, safeParseGuard_eq_not_isRecordVal, hr]
          constructor
          · intro v2
            constructor
            · intro h
              rw [hsp] at h
              cases h
              exact ⟨rfl, hr⟩
            · rintro ⟨hv2, _⟩
              cases hv2
              exact hsp
          · constructor
            · rintro ⟨m, hm⟩
              rw [hsp] at hm
              exact Except.noConfusion hm
            · intro hne
              exact absurd ⟨v, rfl, hr⟩ hne
      | false =>
          have hsp : safeParseJson s =
              Except.error "artifacts must be a JSON object" := by
            simp [safeParseJson, hj, safeParseGuard_eq_not_isRecordVal, hr]
          constructor
          · intro v2
            constructor
            · intro h
              rw [hsp] at h
              exact Except.noConfusion h
            · rintro ⟨hv2, hr2⟩
              cases hv2
              rw [hr] at hr2
              exact Bool.noConfusion hr2
          · constructor
            · rintro _ ⟨v2, hv2, hr2⟩
              cases hv2
              rw [hr] at hr2
              exact Bool.noConfusion hr2
            · intro _
              exact ⟨_, hsp⟩

/-- Witness for C9 on concrete strings: an object literal parses to
`ok`, an array literal and malformed input go to the error branch. -/
theorem safe_parse_json_c9_witness :
    safeParseJson "\x7b\"a\":1\x7d" = Except.ok (Jval.obj [("a", Jval.num 1 0)]) ∧
    (∃ m, safeParseJson "[1]" = Except.error m) ∧
    (∃ m, safeParseJson "not json" = Except.error m) := by
  refine ⟨?_, ?_, ?_⟩
  · exact ((safe_parse_json_c9 _).1 _).mpr ⟨rfl, rfl⟩
  · refine (safe_parse_json_c9 _).2.mpr ?_
    rintro ⟨v, hv, hr⟩
    rw [show jsonParse "[1]" = some (Jval.arr [Jval.num 1 0]) from rfl] at hv
    cases hv
    exact Bool.noConfusion hr
  · refine (safe_parse_json_c9 _).2.mpr ?_
    rintro ⟨v, hv, _⟩
    rw [show jsonParse "not json" = none from rfl] at hv
    exact Option.noConfusion hv

/-- The candidate-key probe of `normalizeSubmissionsListResponse`
either returns the array under the first candidate key that holds one —
all earlier candidates holding none — or returns `[]` when no candidate
key holds an array. -/
theorem firstArrayUnder_spec (ks : List String) (fs : List (String × Jval)) :
    (∃ ks1 k ks2, ks = ks1 ++ k :: ks2 ∧
      lookupField fs k = some (Jval.arr (firstArrayUnder ks fs)) ∧
      ∀ k2 ∈ ks1, ∀ ys, lookupField fs k2 ≠ some (Jval.arr ys)) ∨
    (firstArrayUnder ks fs = [] ∧
      ∀ k ∈ ks, ∀ ys, lookupField fs k ≠ some (Jval.arr ys)) := by
  induction ks with
  | nil => exact Or.inr ⟨rfl, by simp⟩
  | cons k ks ih =>
      by_cases hk : ∃ ys, lookupField fs k = some (Jval.arr ys)
      · obtain ⟨ys, hys⟩ := hk
        left
        refine ⟨[], k, ks, rfl, ?_, by simp⟩
        simp [firstArrayUnder, hys]
      · have hstep : firstArrayUnder (k :: ks) fs = firstArrayUnder ks fs := by
          cases hl : lookupField fs k with
          | none => simp [firstArrayUnder, hl]
          | some w =>
              cases w with
              | arr xs => exact absurd ⟨xs, hl⟩ hk
              | null => simp [firstArrayUnder, hl]
              | bool b => simp [firstArrayUnder, hl]
              | num m e => simp [firstArrayUnder, hl]
              | str s => simp [firstArrayUnder, hl]
              | obj gs => simp [firstArrayUnder, hl]
        rcases ih with ⟨ks1, k1, ks2, he, hfk, hmin⟩ | ⟨hnil, hall⟩
        · left
          refine ⟨k :: ks1, k1, ks2, by rw [he]; rfl, by rw [hstep]; exact hfk, ?_⟩
          intro k2 hk2 ys
          rcases List.mem_cons.mp hk2 with h | h
          · subst h
            intro hc
            exact hk ⟨ys, hc⟩
          · exact hmin k2 h ys
        · right
          refine ⟨by rw [hstep]; exact hnil, ?_⟩
          intro k2 hk2 ys
          rcases List.mem_cons.mp hk2 with h | h
          · subst h
            intro hc
            exact hk ⟨ys, hc⟩
          · exact hall k2 h ys

/-- A member read throws exactly on a null element. -/
theorem readCreatedAt_eq_none_iff (a : Jval) :
    readCreatedAt a = none ↔ a = Jval.null := by
  cases a <;> simp [readCreatedAt]

/-- The descending `created_at` comparator is transitive. -/
theorem createdAtLe_trans (dpv : Jval → Option Int) (a b c : Jval)
    (hab : createdAtLe dpv a b) (hbc : createdAtLe dpv b c) :
    createdAtLe dpv a c := by
  have h1 : keyRank dpv b ≤ keyRank dpv a := of_decide_eq_true hab
  have h2 : keyRank dpv c ≤ keyRank dpv b := of_decide_eq_true hbc
  exact decide_eq_true (le_trans h2 h1)

/-- The descending `created_at` comparator is total. -/
theorem createdAtLe_total (dpv : Jval → Option Int) (a b : Jval) :
    createdAtLe dpv a b || createdAtLe dpv b a := by
  simp only [createdAtLe, Bool.or_eq_true, decide_eq_true_eq]
  exact le_total (keyRank dpv b) (keyRank dpv a)

/-- C10 (amended): `normalizeSubmissionsListResponse` totally yields a
list — the payload itself when it is an array, else the first array
under the candidate keys `items`, `submissions`, `data`, `results` of a
record, else `[]`.  `sortByCreatedAtDesc` yields `[]` for any non-array
input; on an array it throws a TypeError exactly when the array has at
least two elements and contains a null element (the comparator reads
`created_at` off null), and whenever it does return, the result is a
permutation of the array ordered by non-increasing parsed `created_at`
keys, missing or unparseable timestamps ranking bottom, hence last. -/
theorem audit_list_normalization_c10 (dpv : Jval → Option Int) :
    (∀ xs : List Jval, normalizeSubmissionsListResponse (Jval.arr xs) = xs) ∧
    (∀ v : Jval, isArrVal v = false → isRecordVal v = false →
      normalizeSubmissionsListResponse v = []) ∧
    (∀ fs : List (String × Jval),
      (∃ ks1 k ks2, candidateKeys = ks1 ++ k :: ks2 ∧
        lookupField fs k =
          some (Jval.arr (normalizeSubmissionsListResponse (Jval.obj fs))) ∧
        ∀ k2 ∈ ks1, ∀ ys, lookupField fs k2 ≠ some (Jval.arr ys)) ∨
      (normalizeSubmissionsListResponse (Jval.obj fs) = [] ∧
        ∀ k ∈ candidateKeys, ∀ ys, lookupField fs k ≠ some (Jval.arr ys))) ∧
    (∀ v : Jval, isArrVal v = false → sortByCreatedAtDesc dpv v = some []) ∧
    (∀ xs : List Jval, sortByCreatedAtDesc dpv (Jval.arr xs) = none ↔
      (2 ≤ xs.length ∧ Jval.null ∈ xs)) ∧
    (∀ xs ys : List Jval, sortByCreatedAtDesc dpv (Jval.arr xs) = some ys →
      ys.Perm xs ∧
        ys.Pairwise (fun a b => keyRank dpv b ≤ keyRank dpv a)) := by
  have hcond : ∀ xs : List Jval,
      (decide (2 ≤ xs.length) &&
        xs.any (fun a => (readCreatedAt a).isNone)) = true ↔
      (2 ≤ xs.length ∧ Jval.null ∈ xs) := by
    intro xs
    simp [List.any_eq_true, Option.isNone_iff_eq_none, readCreatedAt_eq_none_iff]
  refine ⟨?_, ?_, ?_, ?_, ?_, ?_⟩
  · intro xs
    rfl
  · intro v ha hr
    cases v with
    | arr xs => exact Bool.noConfusion ha
    | obj fs => exact Bool.noConfusion hr
    | null => rfl
    | bool b => rfl
    | num m e => rfl
    | str s => rfl
  · intro fs
    exact firstArrayUnder_spec candidateKeys fs
  · intro v ha
    cases v with
    | arr xs => exact Bool.noConfusion ha
    | obj fs => rfl
    | null => rfl
    | bool b => rfl
    | num m e => rfl
    | str s => rfl
  · intro xs
    constructor
    · intro h
      by_cases hc : (decide (2 ≤ xs.length) &&
          xs.any (fun a => (readCreatedAt a).isNone)) = true
      · exact (hcond xs).mp hc
      · exfalso
        simp only [sortByCreatedAtDesc] at h
        rw [if_neg hc] at h
        exact Option.noConfusion h
    · intro h
      simp only [sortByCreatedAtDesc]
      rw [if_pos ((hcond xs).mpr h)]
  · intro xs ys h
    by_cases hc : (decide (2 ≤ xs.length) &&
        xs.any (fun a => (readCreatedAt a).isNone)) = true
    · simp only [sortByCreatedAtDesc] at h
      rw [if_pos hc] at h
      exact Option.noConfusion h
    · simp only [sortByCreatedAtDesc] at h
      rw [if_neg hc] at h
      have hys : ys = xs.mergeSort (createdAtLe dpv) := (Option.some.inj h).symm
      subst hys
      constructor
      · exact List.mergeSort_perm xs (createdAtLe dpv)
      · have hs := List.sorted_mergeSort
          (fun a b c hab hbc => createdAtLe_trans dpv a b c hab hbc)
          (fun a b => createdAtLe_total dpv a b) xs
        exact hs.imp fun hab => of_decide_eq_true hab

/-- Witness for C10: the non-array branches at the JSON value `null`,
the throwing branch at a two-null array, and the sorted-permutation
conclusion at the empty array. -/
theorem audit_list_normalization_c10_witness :
    normalizeSubmissionsListResponse Jval.null = [] ∧
    sortByCreatedAtDesc (fun _ => none) Jval.null = some [] ∧
    sortByCreatedAtDesc (fun _ => none) (Jval.arr [Jval.null, Jval.null]) =
      none ∧
    (([] : List Jval).Perm [] ∧
      ([] : List Jval).Pairwise
        (fun a b => keyRank (fun _ => none) b ≤ keyRank (fun _ => none) a)) := by
  refine ⟨?_, ?_, ?_, ?_⟩
  · exact (audit_list_normalization_c10 (fun _ => none)).2.1 Jval.null rfl rfl
  · exact (audit_list_normalization_c10 (fun _ => none)).2.2.2.1 Jval.null rfl
  · exact ((audit_list_normalization_c10 (fun _ => none)).2.2.2.2.1
      [Jval.null, Jval.null]).mpr ⟨by decide, by simp⟩
  · exact (audit_list_normalization_c10 (fun _ => none)).2.2.2.2.2 [] []
      (by simp [sortByCreatedAtDesc, List.mergeSort_nil])

/-- Counterexample to C10 as stated: on the array `[null, null]` the
sort comparator reads `created_at` off a null element and throws, so
`sortByCreatedAtDesc` returns no permutation of its array input at
all — where the claim asserts one for payloads of arbitrary shape. -/
theorem audit_list_normalization_c10_counterexample :
    sortByCreatedAtDesc (fun _ => none) (Jval.arr [Jval.null, Jval.null]) =
      none ∧
    ¬ ∃ ys : List Jval,
      sortByCreatedAtDesc (fun _ => none) (Jval.arr [Jval.null, Jval.null]) =
        some ys := by
  constructor
  · rfl
  · rintro ⟨ys, h⟩
    rw [show sortByCreatedAtDesc (fun _ => none)
        (Jval.arr [Jval.null, Jval.null]) = none from rfl] at h
    exact Option.noConfusion h
